import Mathlib

/-!
# Verification of the digital-transformation-index dashboard

A shallow embedding of `simplified_main_app.py`: a read-only dashboard that
loads one table from SQLite, coerces two columns to numeric, filters by year
range / industry membership / company-name search, aggregates by industry,
and exports the filtered rows as CSV.

Modelling conventions:
* A table is a `List Row`; the five columns of the `SELECT` are the five
  fields of `Row`, in display order.
* pandas `NaN` (a SQL `NULL`, or a value `pd.to_numeric(errors='coerce')`
  could not parse) is `Option.none`; numeric float64 cells are `ℚ`.
* `pd.to_numeric` string parsing is modelled on its decimal fragment
  (optional sign, digits, optional fractional part); exponents and
  whitespace trimming are not needed by any claim.
* pandas `Series.str.contains(pat, case=False, na=False)` compiles `pat`
  as a regular expression (`regex=True` is the default) and runs
  `re.search` with `IGNORECASE`.  It is modelled on the fragment of Python
  regexes whose only metacharacter is the wildcard `.` (which matches any
  character except a newline); every pattern free of regex metacharacters
  falls inside this fragment and is matched literally, exactly as Python
  does.  Case folding is modelled on the ASCII fragment (`Char.toLower`).
* `DataFrame.to_csv(index=False, encoding='utf-8-sig')` with no path
  returns a Python `str` (the `encoding` argument applies only when
  writing to a file, so no byte-order mark is prepended), and
  `st.download_button` encodes that `str` as plain UTF-8.  The numeric
  cell text of the CSV is abbreviated as `toString` of the rational; no
  claim depends on numeric cell formatting.
-/

namespace DTApp

/-- A raw row as `pd.read_sql_query` materialises it from the `SELECT` of
`DatabaseManager.get_all_data` (columns renamed to the display labels):
`stock_code` is an integer, the text columns may be NULL (`none`), and the
`year` / `transformation_index` cells arrive as raw text (or NULL). -/
structure RawRow where
  stock_code : Int
  company_name : Option String
  year : Option String
  industry_name : Option String
  transformation_index : Option String
deriving DecidableEq, Repr

/-- A coerced row, after `load_data` has run `pd.to_numeric(errors='coerce')`
on the year and index columns: unparseable cells are `none` (NaN). -/
structure Row where
  stock_code : Int
  company_name : Option String
  year : Option ℚ
  industry_name : Option String
  transformation_index : Option ℚ
deriving DecidableEq, Repr

/-! ## Numeric coercion (`pd.to_numeric(errors='coerce')`) -/

/-- Value of a digit string read left to right. -/
def digitsToNat (cs : List Char) : Nat :=
  cs.foldl (fun a c => a * 10 + (c.toNat - 48)) 0

/-- Parse an unsigned decimal literal: digits, optionally followed by a dot
and further digits, with at least one digit overall (`"2010"`, `"3.14"`,
`".5"`, `"5."`).  Anything else is unparseable. -/
def parseNumericCore (cs : List Char) : Option ℚ :=
  let intPart := cs.takeWhile Char.isDigit
  let rest := cs.dropWhile Char.isDigit
  match rest with
  | [] => if intPart.isEmpty then none else some (digitsToNat intPart : ℚ)
  | '.' :: frac =>
      if frac.all Char.isDigit && (!intPart.isEmpty || !frac.isEmpty) then
        some ((digitsToNat intPart : ℚ) + (digitsToNat frac : ℚ) / (10 ^ frac.length))
      else none
  | _ => none

/-- `pd.to_numeric(errors='coerce')` on one text cell: an optional sign then
a decimal literal; failure is the missing marker `none` (NaN). -/
def parseNumeric (s : String) : Option ℚ :=
  match s.data with
  | '-' :: rest => (parseNumericCore rest).map (fun q => -q)
  | '+' :: rest => parseNumericCore rest
  | cs => parseNumericCore cs

/-- Coerce one raw row: `df['年份'] = pd.to_numeric(df['年份'], errors='coerce')`
and likewise for the index column; a NULL cell is already NaN and stays
missing. -/
def coerceRow (r : RawRow) : Row :=
  { stock_code := r.stock_code
    company_name := r.company_name
    year := r.year.bind parseNumeric
    industry_name := r.industry_name
    transformation_index := r.transformation_index.bind parseNumeric }

/-- `load_data` past the accessor: `None` propagates, otherwise the two
numeric columns are coerced.  (The `@st.cache_data` memoisation only avoids
re-querying; it does not change the value.) -/
def load_data (fetched : Option (List RawRow)) : Option (List Row) :=
  match fetched with
  | none => none
  | some df => some (df.map coerceRow)

/-! ## The storage accessor (`DatabaseManager.get_all_data`) -/

/-- Connection state of a `DatabaseManager`: `conn` is `true` when a
sqlite3 connection object is held (`self.conn` is not `None`). -/
structure DBM where
  conn : Bool
deriving DecidableEq, Repr

/-- `DatabaseManager.connect`: on driver success holds a connection and
returns `True`; on `sqlite3.Error` reports and returns `False` leaving the
state as it was. -/
def connect (ok : Bool) (m : DBM) : Bool × DBM :=
  if ok then (true, { conn := true }) else (false, m)

/-- `DatabaseManager.disconnect`: closes and drops the connection when one
is held. -/
def disconnect (m : DBM) : DBM :=
  if m.conn then { conn := false } else m

/-- `DatabaseManager.get_all_data`, with the environment made explicit:
`ok` is whether `sqlite3.connect` succeeds and `queryRes` is what
`pd.read_sql_query` does (a table, or an exception message).  Returns the
optional table together with the final connection state; the `finally`
block runs `disconnect` on both the success and the exception path. -/
def get_all_data (ok : Bool) (queryRes : Except String (List RawRow)) (m : DBM) :
    Option (List RawRow) × DBM :=
  match connect ok m with
  | (false, m1) => (none, m1)
  | (true, m1) =>
      match queryRes with
      | .ok df => (some df, disconnect m1)
      | .error _ => (none, disconnect m1)

/-! ## The filter stage (lines 103–110) -/

/-- Sidebar state: the slider's year range, the multiselect's industry list
and the text input's query. -/
structure FilterParams where
  lo : Int
  hi : Int
  industries : List String
  query : String
deriving DecidableEq, Repr

/-- Line 104: `filtered_df[(年份 >= lo) & (年份 <= hi)]`.  A NaN year
compares `False` on both sides, so missing years are dropped. -/
def yearStep (lo hi : Int) (t : List Row) : List Row :=
  t.filter (fun r =>
    match r.year with
    | none => false
    | some y => decide ((lo : ℚ) ≤ y) && decide (y ≤ (hi : ℚ)))

/-- Lines 106–107: `if selected_industries: filtered_df[行业名称.isin(...)]`.
An empty Python list is falsy, so the step is skipped; a NaN industry is
never `isin` a list of strings. -/
def industryStep (inds : List String) (t : List Row) : List Row :=
  if inds.isEmpty then t
  else t.filter (fun r =>
    match r.industry_name with
    | none => false
    | some s => decide (s ∈ inds))

/-! ### `str.contains(pat, case=False, na=False)` -/

/-- ASCII-fragment case-insensitive character comparison (`re.IGNORECASE`). -/
def charEqCI (c d : Char) : Bool :=
  c.toLower == d.toLower

/-- Does the pattern match at the start of the text?  The wildcard `.`
matches any character except a newline; every other pattern character
matches itself case-insensitively. -/
def patMatchAt : List Char → List Char → Bool
  | [], _ => true
  | _ :: _, [] => false
  | p :: ps, t :: ts => ((p == '.' && t != '\n') || charEqCI p t) && patMatchAt ps ts

/-- `re.search(pat, text, re.IGNORECASE)` on the modelled regex fragment:
the pattern matches at some position of the text (including the position
just past the end, where only the empty pattern matches). -/
def reSearch (pat text : List Char) : Bool :=
  text.tails.any (fun suf => patMatchAt pat suf)

/-- Lines 109–110: `if company_search: filtered_df[企业名称.str.contains(company_search,
case=False, na=False)]`.  An empty query string is falsy, so the step is
skipped; `na=False` makes a missing company name never match. -/
def nameStep (q : String) (t : List Row) : List Row :=
  if q = "" then t
  else t.filter (fun r =>
    match r.company_name with
    | none => false
    | some nm => reSearch q.data nm.data)

/-- Lines 103–110 as one function: `filtered_df = df.copy()`, then the year
mask, then the industry mask, then the name mask. -/
def filterStage (df : List Row) (p : FilterParams) : List Row :=
  nameStep p.query (industryStep p.industries (yearStep p.lo p.hi df))

/-! ## Aggregation (lines 136–138 and 158–160) -/

/-- The distinct non-missing industry names of a table, in first-occurrence
order: the group keys of `groupby('行业名称')`, which drops NaN keys.  (pandas
additionally sorts the keys, but both charts re-sort by the aggregate value,
so the key order is immaterial; first-occurrence order keeps the embedding
deterministic.) -/
def distinctIndustries (t : List Row) : List String :=
  (t.filterMap (fun r => r.industry_name)).dedup

/-- `groupby('行业名称')['股票代码'].nunique()` for one group: the number of
distinct stock codes among the rows carrying this industry. -/
def nuniqueCodes (t : List Row) (ind : String) : Nat :=
  ((t.filter (fun r => r.industry_name == some ind)).map (fun r => r.stock_code)).dedup.length

/-- The non-missing index values of one industry group. -/
def groupIndexVals (t : List Row) (ind : String) : List ℚ :=
  (t.filter (fun r => r.industry_name == some ind)).filterMap (fun r => r.transformation_index)

/-- `groupby('行业名称')['数字化转型指数'].mean()` for one group: the
arithmetic mean of the non-NaN index values (`skipna=True`), NaN (`none`)
when the group has no non-missing value. -/
def groupMean (t : List Row) (ind : String) : Option ℚ :=
  match groupIndexVals t ind with
  | [] => none
  | vs => some (vs.sum / (vs.length : ℚ))

/-- Descending order on `(industry, count)` pairs, as
`sort_values('企业数量', ascending=False)` orders rows. -/
def distGE (a b : String × Nat) : Prop := b.2 ≤ a.2

instance : DecidableRel distGE := fun a b => inferInstanceAs (Decidable (b.2 ≤ a.2))

instance : IsTotal (String × Nat) distGE := ⟨fun a b => Nat.le_total b.2 a.2⟩

instance : IsTrans (String × Nat) distGE :=
  ⟨fun _ _ _ h1 h2 => Nat.le_trans h2 h1⟩

/-- Descending order on `(industry, mean)` pairs with NaN sorted last, as
`sort_values('平均数字化转型指数', ascending=False)` orders rows
(`na_position='last'`). -/
def avgGE (a b : String × Option ℚ) : Prop :=
  match b.2 with
  | none => True
  | some y =>
      match a.2 with
      | none => False
      | some x => y ≤ x

instance : DecidableRel avgGE := fun a b => by
  unfold avgGE
  cases b.2 with
  | none => exact inferInstanceAs (Decidable True)
  | some y =>
      cases a.2 with
      | none => exact inferInstanceAs (Decidable False)
      | some x => exact inferInstanceAs (Decidable (y ≤ x))

instance : IsTotal (String × Option ℚ) avgGE :=
  ⟨fun a b => by
    unfold avgGE
    cases a.2 with
    | none => cases b.2 <;> simp
    | some x =>
        cases b.2 with
        | none => exact Or.inl trivial
        | some y => exact (le_total y x).imp id id⟩

instance : IsTrans (String × Option ℚ) avgGE :=
  ⟨fun a b c h1 h2 => by
    unfold avgGE at h1 h2 ⊢
    cases hc : c.2 with
    | none => trivial
    | some z =>
        rw [hc] at h2
        cases hb : b.2 with
        | none => rw [hb] at h2; exact h2.elim
        | some y =>
            rw [hb] at h1 h2
            cases ha : a.2 with
            | none => rw [ha] at h1; exact h1.elim
            | some x => rw [ha] at h1; exact le_trans h2 h1⟩

/-- Lines 136–138: group the filtered table by industry, count distinct
stock codes per group, sort by the count descending, keep the first 20. -/
def industryDist (t : List Row) : List (String × Nat) :=
  (List.insertionSort distGE
    ((distinctIndustries t).map (fun i => (i, nuniqueCodes t i)))).take 20

/-- Lines 158–160: group the filtered table by industry, average the index
column per group, sort by the mean descending, keep the first 20. -/
def industryAvg (t : List Row) : List (String × Option ℚ) :=
  (List.insertionSort avgGE
    ((distinctIndustries t).map (fun i => (i, groupMean t i)))).take 20

/-! ## CSV export (lines 178–186) -/

/-- The five display column labels, in display order (the `AS` aliases of
the `SELECT`). -/
def displayColumns : List String :=
  ["股票代码", "企业名称", "年份", "行业名称", "数字化转型指数"]

/-- Minimal CSV quoting (`csv.QUOTE_MINIMAL`, the pandas default): a field
containing a separator, quote or line break is wrapped in double quotes
with inner quotes doubled. -/
def csvQuote (s : String) : String :=
  if s.data.any (fun c => c == ',' || c == '"' || c == '\n' || c == '\r') then
    ⟨'"' :: s.data.foldr (fun c acc => if c == '"' then '"' :: '"' :: acc else c :: acc) ['"']⟩
  else s

/-- A NaN numeric cell serialises as the empty field; numeric text is
abbreviated as `toString` of the rational (no claim depends on it). -/
def renderOptQ (q : Option ℚ) : String :=
  match q with
  | none => ""
  | some v => toString v

/-- A NULL text cell serialises as the empty field. -/
def renderOptStr (s : Option String) : String :=
  csvQuote (s.getD "")

/-- One CSV data line, fields in display-column order, no index field
(`index=False`). -/
def rowToCsv (r : Row) : String :=
  String.intercalate "," [toString r.stock_code, renderOptStr r.company_name,
    renderOptQ r.year, renderOptStr r.industry_name, renderOptQ r.transformation_index]

/-- The CSV header line: the five display column names. -/
def csvHeader : String :=
  String.intercalate "," displayColumns

/-- Line 180: `filtered_df.to_csv(index=False, encoding='utf-8-sig')`.
With no path argument `to_csv` returns a Python `str` — the `encoding`
argument only applies when writing to a file — so the result is the header
line followed by one line per row, with no byte-order mark. -/
def to_csv (t : List Row) : String :=
  String.intercalate "\n" (csvHeader :: t.map rowToCsv) ++ "\n"

/-- UTF-8 encoding of one character (RFC 3629). -/
def utf8EncodeChar (c : Char) : List Nat :=
  let n := c.toNat
  if n < 0x80 then [n]
  else if n < 0x800 then [0xC0 ||| (n >>> 6), 0x80 ||| (n &&& 0x3F)]
  else if n < 0x10000 then
    [0xE0 ||| (n >>> 12), 0x80 ||| ((n >>> 6) &&& 0x3F), 0x80 ||| (n &&& 0x3F)]
  else
    [0xF0 ||| (n >>> 18), 0x80 ||| ((n >>> 12) &&& 0x3F),
      0x80 ||| ((n >>> 6) &&& 0x3F), 0x80 ||| (n &&& 0x3F)]

/-- The bytes `st.download_button` sends for a `str` payload: its plain
UTF-8 encoding (no byte-order mark is added for a `str`). -/
def utf8Encode (s : String) : List Nat :=
  s.data.flatMap utf8EncodeChar

/-- The UTF-8 byte-order mark. -/
def bomBytes : List Nat := [0xEF, 0xBB, 0xBF]

/-- Lines 178–186: the export section renders only when the filtered table
is non-empty; it offers the CSV text under a file name embedding the
selected year range. -/
def exportSection (filtered : List Row) (lo hi : Int) : Option (String × String) :=
  if filtered.isEmpty then none
  else some (to_csv filtered, "数字化转型指数_" ++ toString lo ++ "-" ++ toString hi ++ ".csv")

/-! ## The page pipeline (lines 70–110 and the guards around them) -/

/-- The non-missing year values of the loaded table. -/
def someYears (t : List Row) : List ℚ :=
  t.filterMap (fun r => r.year)

/-- `df['年份'].min()`: NaN-skipping minimum, NaN (`none`) when every year
is missing. -/
def minYear (t : List Row) : Option ℚ :=
  match someYears t with
  | [] => none
  | x :: xs => some (xs.foldl min x)

/-- `df['年份'].max()`: NaN-skipping maximum. -/
def maxYear (t : List Row) : Option ℚ :=
  match someYears t with
  | [] => none
  | x :: xs => some (xs.foldl max x)

/-- Python `int()` on a float: truncation toward zero. -/
def intTrunc (q : ℚ) : Int :=
  if 0 ≤ q then ⌊q⌋ else -⌊-q⌋

/-- Lines 80–85: the slider bounds `int(df['年份'].min())`,
`int(df['年份'].max())`.  `int(NaN)` raises `ValueError`, modelled as
`none`. -/
def sliderBounds (t : List Row) : Option (Int × Int) :=
  match minYear t, maxYear t with
  | some mn, some mx => some (intTrunc mn, intTrunc mx)
  | _, _ => none

/-- How far a render pass gets. -/
inductive Outcome where
  /-- Lines 72–74: `df` is `None` or empty — a blocking error is shown and
  `st.stop()` halts the script before the sidebar filters exist. -/
  | stoppedNoData : Outcome
  /-- Line 82 raised (`int(NaN)`): the script dies before the filter UI. -/
  | crashedSlider : Outcome
  /-- The full page: the filtered table and the export action (if any). -/
  | page : List Row → Option (String × String) → Outcome
deriving DecidableEq, Repr

/-- The script's top-to-bottom control flow: load (cached), halt on
absent/empty data, compute slider bounds (raising on an all-missing year
column), filter, and render the page with its export section. -/
def app (fetched : Option (List RawRow)) (p : FilterParams) : Outcome :=
  match load_data fetched with
  | none => .stoppedNoData
  | some df =>
      if df.isEmpty then .stoppedNoData
      else
        match sliderBounds df with
        | none => .crashedSlider
        | some _ =>
            let filtered := filterStage df p
            .page filtered (exportSection filtered p.lo p.hi)

/-- The two dataframe variables of the script: `df` (the loaded table) and
`filtered_df`. -/
structure AppTables where
  df : List Row
  filtered : List Row
deriving DecidableEq, Repr

/-- Running lines 103–110 on the script state: `filtered_df` is recomputed
from `df`; `df` itself is only read (`df.copy()`). -/
def runFilter (s : AppTables) (p : FilterParams) : AppTables :=
  { df := s.df, filtered := filterStage s.df p }

/-! ## Spec-side predicates

These restate the spec's wording of the three filter predicates as
standalone Boolean predicates, to be compared with the masking code
embedded above. -/

/-- Spec wording for the year predicate: keep a row exactly when its year
is present and lies in the closed interval `[lo, hi]`. -/
def specYearKeep (lo hi : Int) (r : Row) : Bool :=
  match r.year with
  | none => false
  | some y => decide ((lo : ℚ) ≤ y ∧ y ≤ (hi : ℚ))

/-- Spec wording for the industry predicate (non-empty selection): keep a
row exactly when its industry is present and a member of the selection. -/
def specIndustryKeep (inds : List String) (r : Row) : Bool :=
  match r.industry_name with
  | none => false
  | some s => decide (s ∈ inds)

/-- Spec wording for the name predicate: the query is contained in the
company name as a literal substring, compared case-insensitively. -/
def containsSubstrCI (q nm : String) : Bool :=
  (nm.data.map Char.toLower).tails.any (fun suf => (q.data.map Char.toLower).isPrefixOf suf)

/-- The metacharacters of Python regular expressions.  A query free of
these is matched by `re.search` exactly as a literal. -/
def regexMetachars : List Char :=
  ['.', '^', '$', '*', '+', '?', '\x7b', '\x7d', '[', ']', '\\', '|', '(', ')']

/-! ## Concrete fixtures for witnesses and counterexamples -/

/-- A row whose company name is `"ab"`. -/
def rowAB : Row :=
  { stock_code := 1, company_name := some "ab", year := some 2010
    industry_name := some "IT", transformation_index := some 3 }

/-- A row named `"Alibaba Group"`. -/
def rowAli : Row :=
  { stock_code := 2, company_name := some "Alibaba Group", year := some 2012
    industry_name := some "电商", transformation_index := some (7/2) }

/-- A row named `"Baidu"`. -/
def rowBaidu : Row :=
  { stock_code := 3, company_name := some "Baidu", year := some 2015
    industry_name := some "搜索", transformation_index := none }

/-- A row with a missing year. -/
def rowNoYear : Row :=
  { stock_code := 4, company_name := some "c", year := none
    industry_name := none, transformation_index := some 1 }

/-- A row outside the sample year range. -/
def rowOld : Row :=
  { stock_code := 5, company_name := none, year := some 1999
    industry_name := some "IT", transformation_index := some 2 }

/-- A small sample table exercising missing years, missing names and
missing industries. -/
def sampleTable : List Row :=
  [rowAB, rowAli, rowBaidu, rowNoYear, rowOld]

/-- A row with missing numeric cells, for evaluating the CSV export in the
kernel. -/
def rowExp : Row :=
  { stock_code := 7, company_name := some "Export Co", year := none
    industry_name := some "IT", transformation_index := none }

/-- Ordering of rows by stock code (the load query's primary sort key). -/
def byCode (a b : Row) : Prop := a.stock_code ≤ b.stock_code

instance : DecidableRel byCode :=
  fun a b => inferInstanceAs (Decidable (a.stock_code ≤ b.stock_code))

/-- A raw row whose year cell does not parse. -/
def rawBadYear : RawRow :=
  { stock_code := 9, company_name := some "d", year := some "abc"
    industry_name := some "IT", transformation_index := some "1.5" }

end DTApp

namespace DTApp

/-! ## Helper lemmas about the filter steps -/

theorem yearStep_eq_spec (df : List Row) (lo hi : Int) :
    yearStep lo hi df = df.filter (specYearKeep lo hi) := by
  unfold yearStep
  refine List.filter_congr ?_
  intro r _
  cases hr : r.year with
  | none => simp [specYearKeep, hr]
  | some y => simp [specYearKeep, hr]

theorem yearStep_sublist (lo hi : Int) (t : List Row) : List.Sublist (yearStep lo hi t) t :=
  List.filter_sublist t

theorem industryStep_sublist (inds : List String) (t : List Row) :
    List.Sublist (industryStep inds t) t := by
  unfold industryStep
  split
  · exact List.Sublist.refl t
  · exact List.filter_sublist t

theorem nameStep_sublist (q : String) (t : List Row) : List.Sublist (nameStep q t) t := by
  unfold nameStep
  split
  · exact List.Sublist.refl t
  · exact List.filter_sublist t

/-! ## C1 -/

/-- C1: for every loaded table and valid year bounds `lo ≤ hi`, the filter
stage (with no industry selection and an empty query, i.e. its year part)
returns exactly the rows of its input whose year lies in the closed
interval `[lo, hi]`; rows whose year is the missing marker are excluded. -/
theorem C1_year_range_filter (df : List Row) (lo hi : Int) (h : lo ≤ hi) :
    filterStage df ⟨lo, hi, [], ""⟩ = df.filter (specYearKeep lo hi) ∧
    (∀ r : Row, specYearKeep lo hi r = true ↔
        ∃ y : ℚ, r.year = some y ∧ ((lo : Int) : ℚ) ≤ y ∧ y ≤ ((hi : Int) : ℚ)) ∧
    (∀ r ∈ yearStep lo hi df, r.year ≠ none) ∧
    yearStep lo hi df = df.filter (specYearKeep lo hi) := by
  refine ⟨?_, ?_, ?_, yearStep_eq_spec df lo hi⟩
  · have h1 : filterStage df ⟨lo, hi, [], ""⟩ = yearStep lo hi df := by
      simp [filterStage, nameStep, industryStep]
    rw [h1, yearStep_eq_spec]
  · intro r
    cases hr : r.year with
    | none => simp [specYearKeep, hr]
    | some y => simp [specYearKeep, hr]
  · intro r hr hnone
    unfold yearStep at hr
    rw [List.mem_filter, hnone] at hr
    simp at hr

/-- Witness for C1 at a concrete table and bounds. -/
theorem C1_year_range_filter_witness :
    (2000 : Int) ≤ 2020 ∧
    (filterStage sampleTable ⟨2000, 2020, [], ""⟩ =
        sampleTable.filter (specYearKeep 2000 2020) ∧
      (∀ r : Row, specYearKeep 2000 2020 r = true ↔
          ∃ y : ℚ, r.year = some y ∧ (((2000 : Int) : ℚ)) ≤ y ∧ y ≤ (((2020 : Int) : ℚ))) ∧
      (∀ r ∈ yearStep 2000 2020 sampleTable, r.year ≠ none) ∧
      yearStep 2000 2020 sampleTable = sampleTable.filter (specYearKeep 2000 2020)) :=
  ⟨by decide, C1_year_range_filter sampleTable 2000 2020 (by decide)⟩

/-! ## C2 -/

/-- C2: an empty industry selection is a no-op (the stage returns what the
year and name filters alone produce); a non-empty selection keeps exactly
the rows whose industry value is a member of the selection. -/
theorem C2_industry_filter (t df : List Row) (lo hi : Int) (q : String)
    (inds : List String) (hne : inds ≠ []) :
    industryStep [] t = t ∧
    filterStage df ⟨lo, hi, [], q⟩ = nameStep q (yearStep lo hi df) ∧
    industryStep inds t = t.filter (specIndustryKeep inds) ∧
    (∀ r : Row, specIndustryKeep inds r = true ↔
        ∃ s, r.industry_name = some s ∧ s ∈ inds) := by
  refine ⟨rfl, rfl, ?_, ?_⟩
  · unfold industryStep
    rw [if_neg (by simp [hne])]
    refine List.filter_congr ?_
    intro r _
    cases hr : r.industry_name <;> simp [specIndustryKeep, hr]
  · intro r
    cases hr : r.industry_name <;> simp [specIndustryKeep, hr]

/-- Witness for C2 at a concrete table and selection. -/
theorem C2_industry_filter_witness :
    (["IT"] ≠ ([] : List String)) ∧
    (industryStep [] sampleTable = sampleTable ∧
      filterStage sampleTable ⟨2000, 2020, [], "a"⟩ =
        nameStep "a" (yearStep 2000 2020 sampleTable) ∧
      industryStep ["IT"] sampleTable = sampleTable.filter (specIndustryKeep ["IT"]) ∧
      (∀ r : Row, specIndustryKeep ["IT"] r = true ↔
          ∃ s, r.industry_name = some s ∧ s ∈ ["IT"])) :=
  ⟨by decide, C2_industry_filter sampleTable sampleTable 2000 2020 "a" ["IT"] (by decide)⟩

/-! ## C6 -/

/-- C6: the filter stage is pure — it never mutates the loaded table `df`,
and re-running it with identical parameters on the same state yields an
identical state. -/
theorem C6_filter_pure (s : AppTables) (p : FilterParams) :
    (runFilter s p).df = s.df ∧ runFilter (runFilter s p) p = runFilter s p :=
  ⟨rfl, rfl⟩

/-! ## C7 -/

/-- C7: whenever `get_all_data` succeeds in opening a connection, the
connection is closed before the call returns, on both the success path and
the query-exception path; a query failure yields `None` with no partial
result. -/
theorem C7_connection_released (ok : Bool) (q : Except String (List RawRow)) (m : DBM)
    (h : ok = true) :
    (get_all_data ok q m).2.conn = false ∧
    (∀ e, q = .error e → (get_all_data ok q m).1 = none) ∧
    (∀ df, q = .ok df → (get_all_data ok q m).1 = some df) := by
  subst h
  cases q <;> simp [get_all_data, connect, disconnect]

/-- Witness for C7 on the query-exception path. -/
theorem C7_connection_released_witness :
    (true = true) ∧
    ((get_all_data true (.error "boom") ⟨false⟩).2.conn = false ∧
      (∀ e, (Except.error "boom" : Except String (List RawRow)) = .error e →
          (get_all_data true (.error "boom") ⟨false⟩).1 = none) ∧
      (∀ df, (Except.error "boom" : Except String (List RawRow)) = .ok df →
          (get_all_data true (.error "boom") ⟨false⟩).1 = some df)) :=
  ⟨rfl, C7_connection_released true (.error "boom") ⟨false⟩ rfl⟩

/-! ## C8 -/

/-- C8: an absent or empty load halts rendering (with the blocking error)
before any filter UI exists; otherwise the year and index columns are
coerced to numeric with unparseable cells becoming missing markers, and
the coercion never fails the load. -/
theorem C8_load_guard (p : FilterParams) (raw : List RawRow) :
    app none p = .stoppedNoData ∧
    app (some []) p = .stoppedNoData ∧
    load_data (some raw) = some (raw.map coerceRow) ∧
    (load_data (some raw)).isSome = true ∧
    (∀ r : RawRow, (coerceRow r).year = r.year.bind parseNumeric ∧
        (coerceRow r).transformation_index = r.transformation_index.bind parseNumeric) :=
  ⟨rfl, rfl, rfl, rfl, fun _ => ⟨rfl, rfl⟩⟩

/-! ## C9 -/

/-- C9: the filter stage's output rows are a sublist of its input (same
record values, same relative order, so any ordering of the input — in
particular the load query's `ORDER BY stock_code, year` — is preserved;
the columns are the five fields of `Row` on both sides by type). -/
theorem C9_filter_order (df : List Row) (p : FilterParams) :
    List.Sublist (filterStage df p) df ∧
    ∀ R : Row → Row → Prop, df.Pairwise R → (filterStage df p).Pairwise R := by
  have hsub : List.Sublist (filterStage df p) df :=
    ((nameStep_sublist p.query _).trans (industryStep_sublist p.industries _)).trans
      (yearStep_sublist p.lo p.hi df)
  exact ⟨hsub, fun _ h => List.Pairwise.sublist hsub h⟩

/-- Witness for C9: the sample table is ordered by stock code and stays so
after filtering. -/
theorem C9_filter_order_witness :
    sampleTable.Pairwise byCode ∧
    (List.Sublist (filterStage sampleTable ⟨2000, 2020, [], ""⟩) sampleTable ∧
      (filterStage sampleTable ⟨2000, 2020, [], ""⟩).Pairwise byCode) :=
  ⟨by decide,
    (C9_filter_order sampleTable ⟨2000, 2020, [], ""⟩).1,
    (C9_filter_order sampleTable ⟨2000, 2020, [], ""⟩).2 byCode (by decide)⟩

/-! ## C10 -/

/-- The non-missing years of a table of all-missing years form the empty
list, so both slider bounds are NaN. -/
theorem sliderBounds_eq_none (df : List Row) (hall : ∀ r ∈ df, r.year = none) :
    sliderBounds df = none := by
  have hy : someYears df = [] := by
    rw [someYears, List.filterMap_eq_nil_iff]
    exact hall
  have hmin : minYear df = none := by
    unfold minYear
    rw [hy]
  have hmax : maxYear df = none := by
    unfold maxYear
    rw [hy]
  unfold sliderBounds
  rw [hmin, hmax]

/-- C10: if the load succeeds with a non-empty table in which no year
parsed (every year cell is the missing marker), the slider-bounds
computation `int(df['年份'].min())` raises, so the filter UI is never
rendered; conversely, reaching the page requires at least one parseable
year. -/
theorem C10_all_missing_years_crash (p : FilterParams) (raw : List RawRow)
    (hne : raw ≠ []) (hall : ∀ r ∈ raw.map coerceRow, Row.year r = none) :
    app (some raw) p = .crashedSlider ∧
    (∀ raw' : List RawRow, ∀ f e, app (some raw') p = .page f e →
        ∃ r ∈ raw'.map coerceRow, Row.year r ≠ none) := by
  constructor
  · have hdf : (raw.map coerceRow).isEmpty = false := by
      rw [List.isEmpty_eq_false]
      simp only [ne_eq, List.map_eq_nil_iff]
      exact hne
    have hsb := sliderBounds_eq_none (raw.map coerceRow) hall
    simp [app, load_data, hdf, hsb]
  · intro raw' f e happ
    by_contra hcon
    push_neg at hcon
    rcases eq_or_ne raw' [] with rfl | hne'
    · simp [app, load_data] at happ
    · have hdf' : (raw'.map coerceRow).isEmpty = false := by
        rw [List.isEmpty_eq_false]
        simp only [ne_eq, List.map_eq_nil_iff]
        exact hne'
      have hall' : ∀ r ∈ raw'.map coerceRow, Row.year r = none := by
        intro r hr
        exact hcon r hr
      have hsb' := sliderBounds_eq_none (raw'.map coerceRow) hall'
      simp [app, load_data, hdf', hsb'] at happ

/-- Witness for C10: one row whose year cell is the unparseable `"abc"`. -/
theorem C10_all_missing_years_crash_witness :
    ([rawBadYear] ≠ ([] : List RawRow)) ∧
    (∀ r ∈ ([rawBadYear].map coerceRow), Row.year r = none) ∧
    (app (some [rawBadYear]) ⟨2000, 2020, [], ""⟩ = .crashedSlider ∧
      (∀ raw' : List RawRow, ∀ f e, app (some raw') ⟨2000, 2020, [], ""⟩ = .page f e →
          ∃ r ∈ raw'.map coerceRow, Row.year r ≠ none)) :=
  ⟨by decide, by decide,
    C10_all_missing_years_crash ⟨2000, 2020, [], ""⟩ [rawBadYear] (by decide) (by decide)⟩

/-! ## C3: the name search -/

/-- On a pattern without the wildcard, matching at the front is exactly a
case-folded prefix test. -/
theorem patMatchAt_eq_isPrefixOf (ps : List Char) (hp : '.' ∉ ps) :
    ∀ ts : List Char, patMatchAt ps ts = (ps.map Char.toLower).isPrefixOf (ts.map Char.toLower) := by
  induction ps with
  | nil => intro ts; simp [patMatchAt]
  | cons p ps ih =>
      have hp' : '.' ∉ ps := fun h => hp (List.mem_cons_of_mem _ h)
      have hpd : (p == '.') = false := by
        rw [beq_eq_false_iff_ne]
        intro h
        exact hp (h ▸ List.mem_cons_self p ps)
      intro ts
      cases ts with
      | nil => simp [patMatchAt]
      | cons t ts' =>
          rw [patMatchAt, List.map_cons, List.map_cons, List.isPrefixOf_cons₂]
          rw [hpd, ih hp' ts']
          simp [charEqCI]

/-- A prefix-scan over the suffixes of a list decides infixhood. -/
theorem any_tails_isPrefixOf (l L : List Char) :
    (L.tails.any fun suf => l.isPrefixOf suf) = true ↔ l <:+: L := by
  rw [List.any_eq_true]
  constructor
  · rintro ⟨suf, hmem, hpre⟩
    rw [List.mem_tails] at hmem
    rw [List.isPrefixOf_iff_prefix] at hpre
    exact List.infix_iff_prefix_suffix.mpr ⟨suf, hpre, hmem⟩
  · intro h
    rcases List.infix_iff_prefix_suffix.mp h with ⟨t, hpre, hsuf⟩
    exact ⟨t, (List.mem_tails _ _).mpr hsuf, List.isPrefixOf_iff_prefix.mpr hpre⟩

/-- `containsSubstrCI` is case-folded substring containment. -/
theorem containsSubstrCI_iff (q nm : String) :
    containsSubstrCI q nm = true ↔
      (q.data.map Char.toLower) <:+: (nm.data.map Char.toLower) :=
  any_tails_isPrefixOf _ _

/-- A suffix of a mapped list is the image of a suffix. -/
theorem exists_suffix_map {α β : Type} (f : α → β) (t : List β) (L : List α)
    (h : t <:+ L.map f) : ∃ s, s <:+ L ∧ s.map f = t := by
  rcases h with ⟨pre, hpre⟩
  rcases List.map_eq_append_iff.mp hpre.symm with ⟨l₁, l₂, hL, _, h2⟩
  exact ⟨l₂, ⟨l₁, hL.symm⟩, h2⟩

/-- On a pattern without the wildcard, `re.search` is exactly case-folded
substring containment. -/
theorem reSearch_eq_substr (q nm : List Char) (hp : '.' ∉ q) :
    reSearch q nm = true ↔ (q.map Char.toLower) <:+: (nm.map Char.toLower) := by
  unfold reSearch
  rw [List.any_eq_true]
  constructor
  · rintro ⟨suf, hmem, hmatch⟩
    rw [List.mem_tails] at hmem
    rw [patMatchAt_eq_isPrefixOf q hp suf, List.isPrefixOf_iff_prefix] at hmatch
    exact List.infix_iff_prefix_suffix.mpr
      ⟨suf.map Char.toLower, hmatch, hmem.map Char.toLower⟩
  · intro h
    rcases List.infix_iff_prefix_suffix.mp h with ⟨t, hpre, hsuf⟩
    rcases exists_suffix_map Char.toLower t nm hsuf with ⟨s, hs, rfl⟩
    refine ⟨s, (List.mem_tails _ _).mpr hs, ?_⟩
    rw [patMatchAt_eq_isPrefixOf q hp s, List.isPrefixOf_iff_prefix]
    exact hpre

/-- C3 counterexample: the query is passed to `str.contains` as a regular
expression, so the query `"."` keeps a row named `"ab"` although `"."` is
not a substring of `"ab"`; the claim as stated fails. -/
theorem C3_counterexample :
    nameStep "." [rowAB] = [rowAB] ∧ containsSubstrCI "." "ab" = false := by
  constructor
  · decide
  · decide

/-- C3 (amended): for a non-empty query free of regex metacharacters, the
name filter keeps exactly the rows whose company name contains the query as
a substring case-insensitively, and a missing company name never matches;
an empty query keeps every row.  (Queries containing metacharacters are
interpreted as regular expressions instead.) -/
theorem C3_name_filter_literal (t : List Row) (q : String) (hq : q ≠ "")
    (hlit : ∀ c ∈ q.data, c ∉ regexMetachars) :
    nameStep q t = t.filter (fun r =>
        match r.company_name with
        | none => false
        | some nm => containsSubstrCI q nm) ∧
    (∀ nm : String, containsSubstrCI q nm = true ↔
        (q.data.map Char.toLower) <:+: (nm.data.map Char.toLower)) ∧
    nameStep "" t = t := by
  have hdot : '.' ∉ q.data := fun h => hlit '.' h (by decide)
  refine ⟨?_, fun nm => containsSubstrCI_iff q nm, rfl⟩
  unfold nameStep
  rw [if_neg hq]
  refine List.filter_congr ?_
  intro r _
  cases hr : r.company_name with
  | none => simp [hr]
  | some nm =>
      simp only [hr]
      have h1 := reSearch_eq_substr q.data nm.data hdot
      have h2 := containsSubstrCI_iff q nm
      exact Bool.eq_iff_iff.mpr (by rw [h1, h2])

/-- Witness for C3 (amended): the spec's own example query `"ali"`. -/
theorem C3_name_filter_literal_witness :
    ("ali" ≠ "") ∧ (∀ c ∈ "ali".data, c ∉ regexMetachars) ∧
    (nameStep "ali" sampleTable = sampleTable.filter (fun r =>
        match r.company_name with
        | none => false
        | some nm => containsSubstrCI "ali" nm) ∧
      (∀ nm : String, containsSubstrCI "ali" nm = true ↔
          ("ali".data.map Char.toLower) <:+: (nm.data.map Char.toLower)) ∧
      nameStep "" sampleTable = sampleTable) :=
  ⟨by decide, by decide, C3_name_filter_literal sampleTable "ali" (by decide) (by decide)⟩


/-! ## C4: the two aggregations -/

/-- Facts about sorting a list by a total transitive relation and keeping
the first `n` entries: membership, sortedness, length, and that every
dropped entry is dominated by every kept entry. -/
theorem sortTake_facts {α : Type} (r : α → α → Prop) [DecidableRel r]
    [IsTotal α r] [IsTrans α r] (l : List α) (n : Nat) :
    (∀ x ∈ (List.insertionSort r l).take n, x ∈ l) ∧
    List.Sorted r ((List.insertionSort r l).take n) ∧
    ((List.insertionSort r l).take n).length = min n l.length ∧
    (∀ x ∈ l, x ∉ (List.insertionSort r l).take n →
        ∀ y ∈ (List.insertionSort r l).take n, r y x) := by
  have hperm := List.perm_insertionSort r l
  have hsorted := List.sorted_insertionSort r l
  refine ⟨?_, ?_, ?_, ?_⟩
  · intro x hx
    exact hperm.mem_iff.mp (List.mem_of_mem_take hx)
  · exact List.Pairwise.sublist (List.take_sublist n _) hsorted
  · rw [List.length_take, hperm.length_eq]
  · intro x hxl hxnot y hy
    have hxs : x ∈ List.insertionSort r l := hperm.mem_iff.mpr hxl
    rw [← List.take_append_drop n (List.insertionSort r l)] at hxs
    rcases List.mem_append.mp hxs with h | h
    · exact absurd h hxnot
    · have hp := hsorted
      rw [← List.take_append_drop n (List.insertionSort r l)] at hp
      exact (List.pairwise_append.mp hp).2.2 y hy x h

/-- C4: the industry-size aggregation pairs each industry with its count
of distinct stock codes, and the industry-average aggregation pairs each
industry with the mean of its non-missing index values; both lists are
sorted by the aggregate descending (missing means last) and truncated to
the first 20 groups, every dropped group being dominated by every kept
group. -/
theorem C4_aggregations (t : List Row) :
    (∀ p ∈ industryDist t, p.2 = nuniqueCodes t p.1 ∧ p.1 ∈ distinctIndustries t) ∧
    List.Sorted distGE (industryDist t) ∧
    (industryDist t).length = min 20 (distinctIndustries t).length ∧
    (∀ i ∈ distinctIndustries t, (i, nuniqueCodes t i) ∉ industryDist t →
        ∀ p ∈ industryDist t, nuniqueCodes t i ≤ p.2) ∧
    (∀ p ∈ industryAvg t, p.2 = groupMean t p.1 ∧ p.1 ∈ distinctIndustries t) ∧
    List.Sorted avgGE (industryAvg t) ∧
    (industryAvg t).length = min 20 (distinctIndustries t).length ∧
    (∀ i ∈ distinctIndustries t, (i, groupMean t i) ∉ industryAvg t →
        ∀ p ∈ industryAvg t, avgGE p (i, groupMean t i)) := by
  have hd := sortTake_facts distGE ((distinctIndustries t).map (fun i => (i, nuniqueCodes t i))) 20
  have ha := sortTake_facts avgGE ((distinctIndustries t).map (fun i => (i, groupMean t i))) 20
  unfold industryDist industryAvg
  refine ⟨?_, hd.2.1, ?_, ?_, ?_, ha.2.1, ?_, ?_⟩
  · intro p hp
    rcases List.mem_map.mp (hd.1 p hp) with ⟨i, hi, rfl⟩
    exact ⟨rfl, hi⟩
  · rw [hd.2.2.1, List.length_map]
  · intro i hi hnot p hp
    exact hd.2.2.2 (i, nuniqueCodes t i)
      (List.mem_map_of_mem (fun i => (i, nuniqueCodes t i)) hi) hnot p hp
  · intro p hp
    rcases List.mem_map.mp (ha.1 p hp) with ⟨i, hi, rfl⟩
    exact ⟨rfl, hi⟩
  · rw [ha.2.2.1, List.length_map]
  · intro i hi hnot p hp
    exact ha.2.2.2 (i, groupMean t i)
      (List.mem_map_of_mem (fun i => (i, groupMean t i)) hi) hnot p hp


/-! ## C5: the CSV export -/

/-- C5, evaluated at a concrete non-empty filtered table: the export action
exists exactly when the filtered table is non-empty and serialises the five
display columns behind a header row with no index column — but the payload
bytes do NOT begin with a UTF-8 byte-order mark, because `to_csv` with no
path returns a `str` (its `encoding='utf-8-sig'` argument is ignored) and
`st.download_button` encodes that `str` as plain UTF-8.  The claim's
"leading byte-order mark" part fails on the code. -/
theorem C5_export_missing_bom :
    exportSection [rowExp] 2012 2023 =
      some (to_csv [rowExp], "数字化转型指数_2012-2023.csv") ∧
    exportSection [] 2012 2023 = none ∧
    to_csv [rowExp] = csvHeader ++ "\n" ++ rowToCsv rowExp ++ "\n" ∧
    (utf8Encode (to_csv [rowExp])).take 3 ≠ bomBytes ∧
    (utf8Encode ("\uFEFF" ++ to_csv [rowExp])).take 3 = bomBytes := by
  refine ⟨by decide, rfl, by decide, by decide, by decide⟩

end DTApp
